import Mathlib

/-!
Verification development for the molecule-datatype module
(lib/galaxy/datatypes/molecules.py).

Modelling conventions:
- A text file is a `List String` of its lines; each line is written without
  its trailing newline character.  Python's file iteration yields each line
  with its newline attached, but every test the module applies to a line
  (startswith on a fixed token, equality after rstrip, regex on the line
  head) depends only on the newline-free text, so this representation is
  faithful.  Where a claim is byte-level, `linesBytes` re-attaches one
  newline per line.
- Byte-level sniffers (CIF) work on the file content as a `String`, taking
  its first 1000 characters like the Python `f.read(1000)`.
- Python exceptions are modelled with `Except`; the error value records the
  exception class and message.
-/

set_option maxRecDepth 4000

/-- Does the character list `s` start with the pattern `p`?  Mirror of
Python's `str.startswith` on the underlying characters. -/
def lstarts : List Char → List Char → Bool
  | [], _ => true
  | _ :: _, [] => false
  | p :: ps, c :: cs => p == c && lstarts ps cs

/-- Does the character list `s` contain `pat` as a contiguous run?  Mirror
of Python's `in` operator on strings. -/
def lcontains (pat : List Char) : List Char → Bool
  | [] => lstarts pat []
  | c :: cs => lstarts pat (c :: cs) || lcontains pat cs

/-- String `s` starts with `pat` (Python `s.startswith(pat)`). -/
def strStarts (s pat : String) : Bool := lstarts pat.data s.data

/-- String `s` contains `pat` (Python `pat in s`). -/
def strContains (s pat : String) : Bool := lcontains pat.data s.data

/-- Drop leading whitespace characters. -/
def dropWs : List Char → List Char
  | [] => []
  | c :: cs => if c.isWhitespace then dropWs cs else c :: cs

/-- Python `str.lstrip()`. -/
def pyLstrip (s : String) : String := ⟨dropWs s.data⟩

/-- Python `str.strip()`. -/
def pyStrip (s : String) : String := ⟨(dropWs ((dropWs s.data).reverse)).reverse⟩

/-- Split a character list on a separator character; mirror of Python
`str.split(sep)`: the empty input gives one empty field. -/
def splitChar (sep : Char) : List Char → List (List Char)
  | [] => [[]]
  | c :: cs =>
    if c == sep then [] :: splitChar sep cs
    else
      match splitChar sep cs with
      | [] => [[c]]
      | l :: ls => (c :: l) :: ls

/-- Split on newline characters, as `content.split('\n')` does. -/
def splitNl (cs : List Char) : List (List Char) := splitChar '\n' cs

/-- Re-attach one newline per line: the byte content of a line list. -/
def linesBytes (ls : List String) : String :=
  String.join (ls.map (fun l => l ++ "\n"))

/-- Python exception values observed by this module. -/
inductive PyErr where
  | valueError : String → PyErr
  | nameError : String → PyErr
  | indexError : String → PyErr
  | exc : String → PyErr

/-- The `split_params` dictionary: a split mode and a chunk size. -/
structure SplitParams where
  split_mode : String
  split_size : Nat

/-- The shared chunking loop of SDF.split, MOL2.split and CML.split, at
record granularity: records are accumulated in order, the global record
counter starts at 1, and the accumulator is flushed as one chunk whenever
the counter is a multiple of the chunk size `k`; a non-empty remainder is
flushed at end of stream (`if sdf_lines_accumulated:` etc.). -/
def chunkRecs {α : Type} (k : Nat) : List α → Nat → List α → List (List α)
  | [], _, [] => []
  | [], _, a :: as => [a :: as]
  | r :: rs, cnt, acc =>
    if (cnt + 1) % k = 0 then (acc ++ [r]) :: chunkRecs k rs (cnt + 1) []
    else chunkRecs k rs (cnt + 1) (acc ++ [r])

/-- The generator `_read_sdf_records` together with its leftover lines:
lines are accumulated and a record is yielded whenever a line starts with
the sentinel `$$$$`; the first component is the list of yielded records,
the second the lines accumulated but never yielded. -/
def readSdfAux : List String → List String → List (List String) × List String
  | acc, [] => ([], acc)
  | acc, l :: ls =>
    if strStarts l "$$$$" then
      ((acc ++ [l]) :: (readSdfAux [] ls).1, (readSdfAux [] ls).2)
    else readSdfAux (acc ++ [l]) ls

/-- Records yielded by `_read_sdf_records`. -/
def readSdfRecords (ls : List String) : List (List String) := (readSdfAux [] ls).1

/-- Lines after the last record sentinel: read but never yielded, hence
written to no chunk. -/
def sdfResidue (ls : List String) : List String := (readSdfAux [] ls).2

/-- The `to_size` path of SDF.split: chunk the records, each chunk being the
concatenation of its records' lines (`sdf_lines_accumulated`). -/
def SDF.chunksTS (k : Nat) (ls : List String) : List (List String) :=
  (chunkRecs k (readSdfRecords ls) 0 []).map List.flatten

/-- SDF.split: `None` split params mean no split; mode `number_of_parts` is
rejected with a message naming SD-files, `to_size` chunks the records, any
other mode is rejected.  The single input file is given as its line list. -/
def SDF.split (params : Option SplitParams) (ls : List String) :
    Except String (Option (List (List String))) :=
  match params with
  | none => Except.ok none
  | some p =>
    if p.split_mode = "number_of_parts" then
      Except.error ("Split mode \"" ++ p.split_mode ++ "\" is currently not implemented for SD-files.")
    else if p.split_mode = "to_size" then
      Except.ok (some (SDF.chunksTS p.split_size ls))
    else
      Except.error ("Unsupported split mode " ++ p.split_mode)

/-- Modelled from the spec: `Text.merge` (the merge used for formats without
a shared header, such as SDF) is not under src/; per spec section 4.5 it is
plain ordered concatenation of the chunks' contents. -/
def Text.mergeLines (chunks : List (List String)) : List String := chunks.flatten

/-- The generator `_read_mol2_records`: a line starting with
`@<TRIPOS>MOLECULE` closes the previous record (except the very first such
line) and opens a new one; the lines of the final record are never yielded
(the generator ends without a closing yield). -/
def mol2RecsAux : Bool → List String → List String → List (List String)
  | _, _, [] => []
  | start, acc, l :: ls =>
    if strStarts l "@<TRIPOS>MOLECULE" then
      if start then mol2RecsAux false (acc ++ [l]) ls
      else acc :: mol2RecsAux false [l] ls
    else mol2RecsAux start (acc ++ [l]) ls

/-- The `to_size` path of MOL2.split. -/
def MOL2.chunksTS (k : Nat) (ls : List String) : List (List String) :=
  (chunkRecs k (mol2RecsAux true [] ls) 0 []).map List.flatten

/-- MOL2.split: same dispatch as SDF.split, with MOL2-file messages. -/
def MOL2.split (params : Option SplitParams) (ls : List String) :
    Except String (Option (List (List String))) :=
  match params with
  | none => Except.ok none
  | some p =>
    if p.split_mode = "number_of_parts" then
      Except.error ("Split mode \"" ++ p.split_mode ++ "\" is currently not implemented for MOL2-files.")
    else if p.split_mode = "to_size" then
      Except.ok (some (MOL2.chunksTS p.split_size ls))
    else
      Except.error ("Unsupported split mode " ++ p.split_mode)

/-- The accumulation loop in the body of FPS.split: blank lines are skipped,
lines starting with `#` are appended to the running header list, other lines
are fingerprints and increment the counter; after any non-blank line, if the
counter is a positive multiple of the chunk size, the current header list
plus the accumulated data lines are flushed as one chunk and the data
accumulator is reset; a non-empty remainder is flushed at end of stream. -/
def fpsLoop (k : Nat) : List String → List String → Nat → List String → List (List String)
  | hdr, acc, _, [] => if acc.isEmpty then [] else [hdr ++ acc]
  | hdr, acc, cnt, l :: ls =>
    if (pyStrip l).isEmpty then fpsLoop k hdr acc cnt ls
    else if strStarts l "#" then
      if cnt ≠ 0 ∧ cnt % k = 0 then
        ((hdr ++ [l]) ++ acc) :: fpsLoop k (hdr ++ [l]) [] cnt ls
      else fpsLoop k (hdr ++ [l]) acc cnt ls
    else
      if (cnt + 1) % k = 0 then
        (hdr ++ (acc ++ [l])) :: fpsLoop k hdr [] (cnt + 1) ls
      else fpsLoop k hdr (acc ++ [l]) (cnt + 1) ls

/-- The `to_size` path of FPS.split. -/
def FPS.chunksTS (k : Nat) (ls : List String) : List (List String) :=
  fpsLoop k [] [] 0 ls

/-- FPS.split: same dispatch as the other splitters.  Its
`number_of_parts` message reads "... not implemented for MOL2-files.",
copied verbatim from the source (lines 316-317 of molecules.py). -/
def FPS.split (params : Option SplitParams) (ls : List String) :
    Except String (Option (List (List String))) :=
  match params with
  | none => Except.ok none
  | some p =>
    if p.split_mode = "number_of_parts" then
      Except.error ("Split mode \"" ++ p.split_mode ++ "\" is currently not implemented for MOL2-files.")
    else if p.split_mode = "to_size" then
      Except.ok (some (FPS.chunksTS p.split_size ls))
    else
      Except.error ("Unsupported split mode " ++ p.split_mode)

/-- Modelled from the spec: the bounded line reader `get_headers` of the
sniff module is not under src/; per spec section 4.1 the bounded view yields
the raw lines up to the requested count, each stripped of trailing newlines,
and the sniffers receive each line split on the given separator (Python
`str.split(sep)`, which returns at least one field). -/
def get_headers (lines : List String) (sep : Char) (count : Nat) : List (List String) :=
  (lines.take count).map (fun l => (splitChar sep l.data).map (fun cs => String.mk cs))

/-- FPS sniff (the body of its sniff_prefix method): reads one header row and
tests whether its first field, stripped, equals `#FPS1`.  On a file with no
lines, `header[0]` is an out-of-range index access, a Python IndexError. -/
def FPS.sniff (lines : List String) : Except PyErr Bool :=
  match get_headers lines '\t' 1 with
  | [] => Except.error (PyErr.indexError "list index out of range")
  | row :: _ =>
    match row with
    | [] => Except.error (PyErr.indexError "list index out of range")
    | tok :: _ => Except.ok (pyStrip tok == "#FPS1")

/-- One fixed-width character-class run of the GRO coordinate-line pattern:
consume exactly `n` characters satisfying `p`, returning the rest. -/
def runClass (p : Char → Bool) : Nat → List Char → Option (List Char)
  | 0, s => some s
  | _ + 1, [] => none
  | n + 1, c :: cs => if p c then runClass p n cs else none

/-- Consume one literal character. -/
def litChar (ch : Char) : List Char → Option (List Char)
  | [] => none
  | c :: cs => if c == ch then some cs else none

/-- Character class `[0-9 ]`. -/
def clsDigitSp (c : Char) : Bool := c.isDigit || c == ' '

/-- Character class `[a-zA-Z0-9 ]`. -/
def clsAlnumSp (c : Char) : Bool := c.isAlphanum || c == ' '

/-- Character class `[0-9 -]`. -/
def clsDigitSpDash (c : Char) : Bool := c.isDigit || c == ' ' || c == '-'

/-- The anchored GRO coordinate-line regular expression
`^[0-9 ]{5}[a-zA-Z0-9 ]{10}[0-9 ]{5}([0-9 -]{4}\.[0-9]{3}){3}` of
GRO.sniff_prefix, as a literal character-class matcher on the line head. -/
def groLineOk (s : String) : Bool :=
  (do
    let r1 ← runClass clsDigitSp 5 s.data
    let r2 ← runClass clsAlnumSp 10 r1
    let r3 ← runClass clsDigitSp 5 r2
    let r4 ← runClass clsDigitSpDash 4 r3
    let r5 ← litChar '.' r4
    let r6 ← runClass Char.isDigit 3 r5
    let r7 ← runClass clsDigitSpDash 4 r6
    let r8 ← litChar '.' r7
    let r9 ← runClass Char.isDigit 3 r8
    let r10 ← runClass clsDigitSpDash 4 r9
    let r11 ← litChar '.' r10
    let _ ← runClass Char.isDigit 3 r11
    pure ()).isSome

/-- Digit-string accumulator for Python `int()`. -/
def digitsToNatAux : List Char → Nat → Option Nat
  | [], acc => some acc
  | c :: cs, acc =>
    if c.isDigit then digitsToNatAux cs (acc * 10 + (c.toNat - 48)) else none

/-- Python `int(s)`: strip whitespace, optional sign, then decimal digits;
anything else raises ValueError, modelled as `none`. -/
def pyToInt (s : String) : Option Int :=
  match (pyStrip s).data with
  | [] => none
  | '+' :: [] => none
  | '-' :: [] => none
  | '+' :: ds => (digitsToNatAux ds 0).map (fun n => (n : Int))
  | '-' :: ds => (digitsToNatAux ds 0).map (fun n => -(n : Int))
  | ds => (digitsToNatAux ds 0).map (fun n => (n : Int))

/-- GRO sniff (the body of its sniff_prefix method): the second header line
must parse as an integer (ValueError from `int` is caught and yields False),
then every line of `headers[2:-1]` must match the coordinate pattern.  On a
file with fewer than two lines, `headers[1]` is an out-of-range index
access, a Python IndexError, which no handler catches. -/
def GRO.sniff (lines : List String) : Except PyErr Bool :=
  match (get_headers lines '\n' 300).get? 1 with
  | none => Except.error (PyErr.indexError "list index out of range")
  | some row =>
    match pyToInt (row.headD "") with
    | none => Except.ok false
    | some _ =>
      Except.ok ((((get_headers lines '\n' 300).drop 2).dropLast).all
        (fun r => groLineOk (r.headD "")))

/-- XYZ.sniff: its body calls `ase_read` and its handler names `XYZError`,
neither of which is defined or imported anywhere in molecules.py, so for
every input the call raises a Python NameError before any file content is
examined. -/
def XYZ.sniff (_lines : List String) : Except PyErr Bool :=
  Except.error (PyErr.nameError "name ase_read is not defined")

/-- OBFS.split: a missing plan returns None, any actual plan raises
NotImplementedError regardless of its contents or of the input. -/
def OBFS.split (_inputs : List (List String)) (params : Option SplitParams) :
    Except String (Option Unit) :=
  match params with
  | none => Except.ok none
  | some _ => Except.error "Splitting Fastsearch indices is not possible."

/-- OBFS.merge: raises NotImplementedError for every chunk list. -/
def OBFS.merge (_chunks : List (List String)) : Except String Unit :=
  Except.error "Merging Fastsearch indices is not supported."

/-- The generator `_read_cml_records`: XML declaration, cml-namespace and
closing `</cml>` lines are dropped; other lines accumulate, and a line whose
lstrip starts with `</molecule>` closes the record. -/
def cmlRecsAux : List String → List String → List (List String)
  | _, [] => []
  | acc, l :: ls =>
    if strStarts (pyLstrip l) "<?xml version=\"1.0\"?>"
        || strStarts (pyLstrip l) "<cml xmlns=\"http://www.xml-cml.org/schema"
        || strStarts (pyLstrip l) "</cml>" then
      cmlRecsAux acc ls
    else
      if strStarts (pyLstrip l) "</molecule>" then
        (acc ++ [l]) :: cmlRecsAux [] ls
      else cmlRecsAux (acc ++ [l]) ls

/-- The fixed header lines `_write_part_cml_file` puts before each chunk. -/
def cmlHeadLines : List String :=
  ["<?xml version=\"1.0\"?>", "<cml xmlns=\"http://www.xml-cml.org/schema\">"]

/-- The `to_size` path of CML.split: each chunk is the shared header, the
chunk's record lines, and a closing `</cml>`. -/
def CML.chunksTS (k : Nat) (ls : List String) : List (List String) :=
  (chunkRecs k (cmlRecsAux [] ls) 0 []).map
    (fun c => cmlHeadLines ++ c.flatten ++ ["</cml>"])

/-- CML.split: same dispatch as the other splitters, with CML-file
messages. -/
def CML.split (params : Option SplitParams) (ls : List String) :
    Except String (Option (List (List String))) :=
  match params with
  | none => Except.ok none
  | some p =>
    if p.split_mode = "number_of_parts" then
      Except.error ("Split mode \"" ++ p.split_mode ++ "\" is currently not implemented for CML-files.")
    else if p.split_mode = "to_size" then
      Except.ok (some (CML.chunksTS p.split_size ls))
    else
      Except.error ("Unsupported split mode " ++ p.split_mode)

/-- The per-line body scan of CML.merge after the two header lines: lines
whose lstrip starts with `</cml>` are skipped; once a line whose lstrip
starts with `<molecule` has been seen, every remaining non-skipped line is
written. -/
def cmlBody : Bool → List String → List String
  | _, [] => []
  | found, l :: ls =>
    if strStarts (pyLstrip l) "</cml>" then cmlBody found ls
    else
      if found || strStarts (pyLstrip l) "<molecule" then
        l :: cmlBody (found || strStarts (pyLstrip l) "<molecule") ls
      else cmlBody found ls

/-- Processing of one chunk file inside the CML.merge loop.  The error value
carries the destination content written so far, because the two malformed-
header branches write the header lines they have read before raising. -/
def CML.processChunk (out : List String) (c : List String) :
    Except (List String × String) (List String) :=
  match c with
  | [] => Except.error (out, "CML file was empty")
  | h :: rest =>
    if strStarts (pyLstrip h) "<?xml version=\"1.0\"?>" then
      match rest with
      | [] => Except.error (out ++ [h], "is not a CML file!")
      | l :: body =>
        if strStarts (pyLstrip l) "<cml xmlns=\"http://www.xml-cml.org/schema" then
          Except.ok (out ++ cmlBody false body)
        else Except.error (out ++ [h, l], "is not a CML file!")
    else Except.error (out ++ [h], "is not a valid XML file!")

/-- The chunk loop of CML.merge, followed by the single closing tag. -/
def CML.mergeLoop (out : List String) : List (List String) → Except (List String × String) (List String)
  | [] => Except.ok (out ++ ["</cml>"])
  | c :: cs =>
    match CML.processChunk out c with
    | Except.ok out2 => CML.mergeLoop out2 cs
    | Except.error e => Except.error e

/-- CML.merge: one chunk degenerates to a byte-preserving copy, an empty
chunk list raises ValueError, otherwise each chunk's two header lines are
validated and its molecule content concatenated. -/
def CML.merge (chunks : List (List String)) : Except (List String × String) (List String) :=
  if chunks.length = 1 then Except.ok chunks.flatten
  else if chunks.isEmpty then Except.error ([], "Given no CML files to merge")
  else CML.mergeLoop [] chunks

/-- A chunk whose first two lines pass the CML.merge header validation. -/
def cmlGoodHdr (c : List String) : Bool :=
  match c with
  | h :: l :: _ =>
    strStarts (pyLstrip h) "<?xml version=\"1.0\"?>"
      && strStarts (pyLstrip l) "<cml xmlns=\"http://www.xml-cml.org/schema"
  | _ => false

/-- The header lines CML.merge has read from a malformed chunk when it
raises: the first line alone when it is bad or the file has no second line,
the first two lines when the second is bad. -/
def cmlHdrRead (c : List String) : List String :=
  match c with
  | [] => []
  | h :: rest =>
    if strStarts (pyLstrip h) "<?xml version=\"1.0\"?>" then
      match rest with
      | [] => [h]
      | l :: _ => [h, l]
    else [h]

/-- The molecule lines CML.merge writes for one well-formed chunk. -/
def cmlChunkBody (c : List String) : List String := cmlBody false (c.drop 2)

/-- The destination content CML.merge has produced after a run of
well-formed chunks. -/
def cmlOut (pre : List (List String)) : List String := (pre.map cmlChunkBody).flatten

/-- The token `data_` of CIF.sniff, as characters. -/
def dataTokL : List Char := "data_".data

/-- The token `_atom_site_fract_` of CIF.sniff, as characters. -/
def siteTokL : List Char := "_atom_site_fract_".data

/-- The line loop of CIF.sniff over the lines of the 1000-byte head: blank
lines and `#` comments are skipped; the first other line either starts with
`data_` (then the head is searched for `_atom_site_fract_`: found means
return True, absent means break to the full-file fallback) or the sniff
returns False.  `none` means the loop fell through to the fallback, either
by `break` or because every line was blank or a comment. -/
def cifLoop (headChars : List Char) : List (List Char) → Option Bool
  | [] => none
  | line :: rest =>
    if line.isEmpty then cifLoop headChars rest
    else if line.headD ' ' == '#' then cifLoop headChars rest
    else if lstarts dataTokL line then
      (if lcontains siteTokL headChars then some true else none)
    else some false

/-- The first line of a line list that is neither blank nor a `#` comment. -/
def firstSubst : List (List Char) → Option (List Char)
  | [] => none
  | line :: rest =>
    if line.isEmpty then firstSubst rest
    else if line.headD ' ' == '#' then firstSubst rest
    else some line

/-- CIF.sniff: run the line loop on the first 1000 characters; if it falls
through, search the whole file for `_atom_site_fract_`. -/
def CIF.sniff (content : String) : Bool :=
  match cifLoop (content.data.take 1000) (splitNl (content.data.take 1000)) with
  | some b => b
  | none => lcontains siteTokL content.data

/-- The values the external ase reader returns for a parsed structure;
not interpreted by this module, so numeric fields are carried as printed strings. -/
structure AseAtoms where
  symbols : List String
  positions : List String
  formula : String
  pbcAny : Bool
  cellpar : List String

/-- The metadata fields the Cell enrichment branch assigns. -/
structure CellMeta where
  number_of_molecules : Nat
  atom_data : List String
  number_atoms : Nat
  chemical_formula : String
  is_periodic : Nat
  lattice_parameters : List String

/-- The enrichment branch of Cell.set_meta (ase present), with the external
`ase_io.read` result as a parameter.  When the read raises ValueError, the
handler `except ValueError:` does not bind the exception, yet its body
evaluates `unicodify(e)`: the name `e` is unbound there, so Python raises
NameError from inside the handler and the `raise` statement that would
re-raise the original ValueError is never reached; nothing is logged. -/
def Cell.setMetaEnriched (aseRead : Except PyErr AseAtoms) : Except PyErr CellMeta :=
  match aseRead with
  | Except.error (PyErr.valueError _) => Except.error (PyErr.nameError "name e is not defined")
  | Except.error err => Except.error err
  | Except.ok a =>
    Except.ok
      { number_of_molecules := 1
        atom_data := (a.symbols.zip a.positions).map (fun sp => sp.1 ++ sp.2)
        number_atoms := ((a.symbols.zip a.positions).map (fun sp => sp.1 ++ sp.2)).length
        chemical_formula := a.formula
        is_periodic := if a.pbcAny then 1 else 0
        lattice_parameters := a.cellpar }

/-- The record-count rule of SDF.set_meta: `count_special_lines` with the
anchored pattern matches exactly the lines whose whole text is `$$$$`. -/
def isSdfSentinel (l : String) : Bool := l == "$$$$"

/-- The SDF record count of a line list, as SDF.set_meta computes it. -/
def sdfRecordCount (ls : List String) : Nat := ls.countP isSdfSentinel

/-- First record of the three-record SDF scenario: a molfile body ending in
`M  END`, a data block, and the record sentinel. -/
def sdfRec1 : List String := ["mol1", "M  END", "> <id> 1", "$$$$"]

/-- Second record of the three-record SDF scenario. -/
def sdfRec2 : List String := ["mol2", "M  END", "> <id> 2", "$$$$"]

/-- Third record of the three-record SDF scenario. -/
def sdfRec3 : List String := ["mol3", "M  END", "> <id> 3", "$$$$"]

/-- The three-record SDF file of the concrete scenario. -/
def sdfFile3 : List String := sdfRec1 ++ sdfRec2 ++ sdfRec3

/-- An SDF file whose record ends with a line merely starting with `$$$$`
and which carries incomplete trailing lines after its last sentinel. -/
def sdfWitTrail : List String := ["mol1", "M  END", "$$$$X", "trailing", "M  E"]

/-- A well-formed CML chunk for the merge scenario. -/
def cmlGoodChunk : List String :=
  ["<?xml version=\"1.0\"?>", "<cml xmlns=\"http://www.xml-cml.org/schema\">",
   "<molecule id=\"a\">", "</molecule>", "</cml>"]

/-- A CML chunk whose second line fails the namespace validation. -/
def cmlBadChunk : List String := ["<?xml version=\"1.0\"?>", "<wrong>"]

/-- A file whose 1000-byte head holds only a comment line, with the CIF atom
token inside that comment. -/
def cifCex : String := "# _atom_site_fract_\n"

theorem chunkRecs_flatten {α : Type} (k : Nat) :
    ∀ (rs : List α) (cnt : Nat) (acc : List α),
      (chunkRecs k rs cnt acc).flatten = acc ++ rs := by
  intro rs
  induction rs with
  | nil =>
    intro cnt acc
    cases acc <;> simp [chunkRecs]
  | cons r rs ih =>
    intro cnt acc
    by_cases h : (cnt + 1) % k = 0
    · simp [chunkRecs, h, ih]
    · simp [chunkRecs, h, ih]

theorem getLast?_cons_of_ne_nil {α : Type} (a : α) {l : List α} (h : l ≠ []) :
    (a :: l).getLast? = l.getLast? := by
  cases l with
  | nil => exact absurd rfl h
  | cons b bs => exact List.getLast?_cons_cons

theorem chunkRecs_spec {α : Type} (k : Nat) (hk : 1 ≤ k) :
    ∀ (rs : List α) (cnt : Nat) (acc : List α),
      cnt % k = acc.length → acc.length < k →
      ((chunkRecs k rs cnt acc).length = (acc.length + rs.length + k - 1) / k ∧
       ((chunkRecs k rs cnt acc).getLast?).map List.length =
         (if acc.length + rs.length = 0 then none
          else if (acc.length + rs.length) % k = 0 then some k
          else some ((acc.length + rs.length) % k))) := by
  intro rs
  induction rs with
  | nil =>
    intro cnt acc hmod hlt
    cases acc with
    | nil =>
      simp only [chunkRecs, List.length_nil, List.getLast?_nil, Option.map_none', Nat.add_zero,
        Nat.zero_add, if_pos rfl]
      exact ⟨(Nat.div_eq_of_lt (by omega)).symm, rfl⟩
    | cons a as =>
      have hlen : (a :: as).length = as.length + 1 := List.length_cons a as
      constructor
      · have hlt2 : as.length + 1 < k := by
          rw [hlen] at hlt
          exact hlt
        have hle : 1 * k ≤ (a :: as).length + ([] : List α).length + k - 1 := by
          simp only [hlen, List.length_nil, Nat.one_mul]
          omega
        have hhi : (a :: as).length + ([] : List α).length + k - 1 < 2 * k := by
          simp only [hlen, List.length_nil]
          omega
        have harith : ((a :: as).length + ([] : List α).length + k - 1) / k = 1 :=
          Nat.div_eq_of_lt_le hle hhi
        simp only [chunkRecs, List.length_singleton, harith]
      · have hm : (a :: as).length % k = (a :: as).length :=
          Nat.mod_eq_of_lt (by simpa using hlt)
        simp only [chunkRecs, List.getLast?_singleton, Option.map_some', List.length_nil,
          Nat.add_zero, hm]
        rw [if_neg (show ¬((a :: as).length = 0) by simp),
          if_neg (show ¬((a :: as).length = 0) by simp)]
  | cons r rs ih =>
    intro cnt acc hmod hlt
    have hstep : (cnt + 1) % k = (acc.length + 1) % k := by
      have h0 : cnt + 1 = k * (cnt / k) + (cnt % k + 1) := by
        have := Nat.div_add_mod cnt k
        omega
      rw [h0, Nat.mul_add_mod, hmod]
    by_cases hfl : (cnt + 1) % k = 0
    · -- flush branch: the accumulator is exactly full, acc.length + 1 = k
      have hk1 : acc.length + 1 = k := by
        rcases Nat.lt_or_ge (acc.length + 1) k with h | h
        · rw [hstep, Nat.mod_eq_of_lt h] at hfl
          omega
        · omega
      have ihx := ih (cnt + 1) [] (by simpa using hfl) (by simpa using hk)
      simp only [List.length_nil, Nat.zero_add] at ihx
      rw [show chunkRecs k (r :: rs) cnt acc
            = (acc ++ [r]) :: chunkRecs k rs (cnt + 1) [] by
          simp [chunkRecs, hfl]]
      constructor
      · rw [List.length_cons, ihx.1]
        have e1 : acc.length + (r :: rs).length + k - 1 = (rs.length + k - 1) + k := by
          simp
          omega
        rw [e1, Nat.add_div_right _ (show 0 < k by omega)]
      · cases rs with
        | nil =>
          have hz : (acc.length + 1) % k = 0 := by
            rw [← hstep]
            exact hfl
          simp only [chunkRecs, List.getLast?_singleton, Option.map_some', List.length_append,
            List.length_singleton, List.length_cons, List.length_nil]
          rw [if_neg (show ¬(acc.length + (0 + 1) = 0) by omega),
            if_pos (show (acc.length + (0 + 1)) % k = 0 by simpa using hz)]
          simp only [Option.some.injEq]
          omega
        | cons r2 rs2 =>
          have hne : chunkRecs k (r2 :: rs2) (cnt + 1) [] ≠ [] := by
            intro hempty
            have h2 := ihx.2
            rw [hempty] at h2
            rw [if_neg (show ¬((r2 :: rs2).length = 0) by simp)] at h2
            by_cases hc : (r2 :: rs2).length % k = 0
            · rw [if_pos hc] at h2
              simp at h2
            · rw [if_neg hc] at h2
              simp at h2
          have e2 : acc.length + (r :: r2 :: rs2).length = k + (r2 :: rs2).length := by
            simp
            omega
          rw [getLast?_cons_of_ne_nil _ hne, ihx.2,
            if_neg (show ¬((r2 :: rs2).length = 0) by simp),
            e2, Nat.add_mod_left,
            if_neg (show ¬(k + (r2 :: rs2).length = 0) by omega)]
    · -- continue branch: the accumulator is not yet full
      have hlt2 : acc.length + 1 < k := by
        rcases Nat.lt_or_ge (acc.length + 1) k with h | h
        · exact h
        · have hk1 : acc.length + 1 = k := by omega
          rw [hstep, hk1, Nat.mod_self] at hfl
          omega
      have hmod2 : (cnt + 1) % k = (acc ++ [r]).length := by
        rw [hstep, Nat.mod_eq_of_lt hlt2]
        simp
      have ihx := ih (cnt + 1) (acc ++ [r]) hmod2 (by simp; omega)
      rw [show chunkRecs k (r :: rs) cnt acc
            = chunkRecs k rs (cnt + 1) (acc ++ [r]) by
          simp [chunkRecs, hfl]]
      have e : (acc ++ [r]).length + rs.length = acc.length + (r :: rs).length := by
        simp
        omega
      rw [e] at ihx
      exact ihx

theorem readSdfAux_decomp :
    ∀ (ls acc : List String),
      (readSdfAux acc ls).1.flatten ++ (readSdfAux acc ls).2 = acc ++ ls := by
  intro ls
  induction ls with
  | nil =>
    intro acc
    simp [readSdfAux]
  | cons l ls ih =>
    intro acc
    by_cases h : strStarts l "$$$$"
    · simp only [readSdfAux, if_pos h, List.flatten_cons, List.append_assoc]
      rw [ih []]
      simp
    · simp only [readSdfAux, if_neg h]
      rw [ih (acc ++ [l])]
      simp

theorem readSdfAux_residue_clean :
    ∀ (ls acc : List String),
      (∀ x ∈ acc, strStarts x "$$$$" = false) →
      ∀ x ∈ (readSdfAux acc ls).2, strStarts x "$$$$" = false := by
  intro ls
  induction ls with
  | nil =>
    intro acc hacc
    simpa [readSdfAux] using hacc
  | cons l ls ih =>
    intro acc hacc
    by_cases h : strStarts l "$$$$"
    · simp only [readSdfAux, if_pos h]
      exact ih [] (by simp)
    · simp only [readSdfAux, if_neg h]
      refine ih (acc ++ [l]) ?_
      intro x hx
      rcases List.mem_append.mp hx with hx | hx
      · exact hacc x hx
      · rcases List.mem_singleton.mp hx with rfl
        exact Bool.not_eq_true _ ▸ (by simpa using h)

theorem flatten_map_flatten {α : Type} :
    ∀ (M : List (List (List α))), (M.map List.flatten).flatten = M.flatten.flatten := by
  intro M
  induction M with
  | nil => simp
  | cons c M ih => simp [ih]

/-- C1: for every SDF input and every to_size plan with chunk size k at
least 1, SDF.split succeeds and the sum over all chunks of the number of
record-end sentinel lines (lines whose whole text is the record-count rule
token `$$$$`) equals the number of such lines in the input: record count is
conserved by splitting. -/
theorem sdf_split_conserves_record_count (ls : List String) (k : Nat) (_hk : 1 ≤ k) :
    SDF.split (some { split_mode := "to_size", split_size := k }) ls
        = Except.ok (some (SDF.chunksTS k ls)) ∧
    ((SDF.chunksTS k ls).map sdfRecordCount).sum = sdfRecordCount ls := by
  refine ⟨rfl, ?_⟩
  have h1 : ((SDF.chunksTS k ls).map (List.countP isSdfSentinel)).sum
      = (SDF.chunksTS k ls).flatten.countP isSdfSentinel :=
    (List.countP_flatten _ _).symm
  have h2 : (SDF.chunksTS k ls).flatten = (readSdfRecords ls).flatten := by
    unfold SDF.chunksTS
    rw [flatten_map_flatten, chunkRecs_flatten]
    simp
  have hdec : (readSdfRecords ls).flatten ++ sdfResidue ls = ls := by
    have h := readSdfAux_decomp ls []
    simpa [readSdfRecords, sdfResidue] using h
  have hres0 : (sdfResidue ls).countP isSdfSentinel = 0 := by
    rw [List.countP_eq_zero]
    intro a ha hb
    have hclean := readSdfAux_residue_clean ls [] (by simp) a ha
    have haeq : a = "$$$$" := by
      have := of_decide_eq_true (by simpa [isSdfSentinel] using hb : decide (a = "$$$$") = true)
      exact this
    rw [haeq] at hclean
    have : strStarts "$$$$" "$$$$" = true := by decide
    rw [this] at hclean
    exact Bool.true_eq_false.mp hclean
  show ((SDF.chunksTS k ls).map (List.countP isSdfSentinel)).sum = ls.countP isSdfSentinel
  rw [h1, h2]
  conv_rhs => rw [← hdec]
  rw [List.countP_append, hres0]
  omega

/-- Witness for C1: the three-record SDF file split with chunk size 2
conserves the record count. -/
theorem sdf_split_conserves_record_count_witness :
    SDF.split (some { split_mode := "to_size", split_size := 2 }) sdfFile3
        = Except.ok (some (SDF.chunksTS 2 sdfFile3)) ∧
    ((SDF.chunksTS 2 sdfFile3).map sdfRecordCount).sum = sdfRecordCount sdfFile3 :=
  sdf_split_conserves_record_count sdfFile3 2 (by decide)

/-- C2: the SDF file with exactly 3 records, split with a to_size plan of
size 2, gives exactly two chunks, the first holding records 1 and 2 and the
second holding record 3, and concatenating chunk 1 then chunk 2 (the merge
for headerless formats) reproduces the original file, both as the line
sequence and byte for byte. -/
theorem sdf_three_record_scenario :
    SDF.split (some { split_mode := "to_size", split_size := 2 }) sdfFile3
        = Except.ok (some [sdfRec1 ++ sdfRec2, sdfRec3]) ∧
    Text.mergeLines [sdfRec1 ++ sdfRec2, sdfRec3] = sdfFile3 ∧
    linesBytes (sdfRec1 ++ sdfRec2) ++ linesBytes sdfRec3 = linesBytes sdfFile3 :=
  ⟨rfl, rfl, rfl⟩

/-- C5: for an SDF input with N complete records (N at least 1) and any
chunk size k at least 1, SDF.split yields exactly ceil(N/k) chunks, and the
final chunk holds exactly N mod k records when k does not divide N, and
exactly k records when it does. -/
theorem sdf_split_chunk_arithmetic (ls : List String) (k : Nat) (hk : 1 ≤ k)
    (hN : 1 ≤ (readSdfRecords ls).length) :
    SDF.split (some { split_mode := "to_size", split_size := k }) ls
        = Except.ok (some (SDF.chunksTS k ls)) ∧
    (SDF.chunksTS k ls).length = ((readSdfRecords ls).length + k - 1) / k ∧
    ((chunkRecs k (readSdfRecords ls) 0 []).getLast?).map List.length =
      (if (readSdfRecords ls).length % k = 0 then some k
       else some ((readSdfRecords ls).length % k)) := by
  have hs := chunkRecs_spec k hk (readSdfRecords ls) 0 [] (by simp) (by simpa using hk)
  simp only [List.length_nil, Nat.zero_add] at hs
  refine ⟨rfl, ?_, ?_⟩
  · unfold SDF.chunksTS
    rw [List.length_map]
    exact hs.1
  · rw [hs.2, if_neg (by omega)]

/-- Witness for C5: three records, chunk size 2: two chunks, the final one
holding 3 mod 2 = 1 record. -/
theorem sdf_split_chunk_arithmetic_witness :
    SDF.split (some { split_mode := "to_size", split_size := 2 }) sdfFile3
        = Except.ok (some (SDF.chunksTS 2 sdfFile3)) ∧
    (SDF.chunksTS 2 sdfFile3).length = ((readSdfRecords sdfFile3).length + 2 - 1) / 2 ∧
    ((chunkRecs 2 (readSdfRecords sdfFile3) 0 []).getLast?).map List.length =
      (if (readSdfRecords sdfFile3).length % 2 = 0 then some 2
       else some ((readSdfRecords sdfFile3).length % 2)) :=
  sdf_split_chunk_arithmetic sdfFile3 2 (by decide) (by decide)

/-- C10: when the content after the last line starting with the sentinel
prefix is non-empty, SDF.split with any to_size plan silently discards the
trailing lines: the concatenation of all chunks is exactly the yielded
records, the input is those records followed by the residue, and no residue
line starts with the sentinel prefix; boundaries are detected with the
prefix test, not exact line equality. -/
theorem sdf_split_discards_trailing (ls : List String) (k : Nat) (_hk : 1 ≤ k)
    (_hres : sdfResidue ls ≠ []) :
    SDF.split (some { split_mode := "to_size", split_size := k }) ls
        = Except.ok (some (SDF.chunksTS k ls)) ∧
    (SDF.chunksTS k ls).flatten = (readSdfRecords ls).flatten ∧
    (readSdfRecords ls).flatten ++ sdfResidue ls = ls ∧
    ∀ l ∈ sdfResidue ls, strStarts l "$$$$" = false := by
  refine ⟨rfl, ?_, ?_, ?_⟩
  · unfold SDF.chunksTS
    rw [flatten_map_flatten, chunkRecs_flatten]
    simp
  · have h := readSdfAux_decomp ls []
    simpa [readSdfRecords, sdfResidue] using h
  · exact readSdfAux_residue_clean ls [] (by simp)

/-- Witness for C10: a file whose record ends with a line merely starting
with the sentinel (`$$$$X`) and which carries two trailing lines. -/
theorem sdf_split_discards_trailing_witness :
    SDF.split (some { split_mode := "to_size", split_size := 1 }) sdfWitTrail
        = Except.ok (some (SDF.chunksTS 1 sdfWitTrail)) ∧
    (SDF.chunksTS 1 sdfWitTrail).flatten = (readSdfRecords sdfWitTrail).flatten ∧
    (readSdfRecords sdfWitTrail).flatten ++ sdfResidue sdfWitTrail = sdfWitTrail ∧
    ∀ l ∈ sdfResidue sdfWitTrail, strStarts l "$$$$" = false :=
  sdf_split_discards_trailing sdfWitTrail 1 (by decide) (by decide)

/-- C3: contrary to the claim that every sniff returns a boolean and never
raises, the code raises on truncated or arbitrary content: FPS.sniff_prefix
indexes `header[0]` of an empty header list (IndexError on an empty file),
GRO.sniff_prefix indexes `headers[1]` (IndexError on a file with fewer than
two lines, caught by no handler), and XYZ.sniff calls the undefined name
`ase_read` (NameError on every input). -/
theorem sniffers_raise_on_truncated_input :
    FPS.sniff [] = Except.error (PyErr.indexError "list index out of range") ∧
    GRO.sniff [] = Except.error (PyErr.indexError "list index out of range") ∧
    ∀ ls : List String,
      XYZ.sniff ls = Except.error (PyErr.nameError "name ase_read is not defined") :=
  ⟨rfl, rfl, fun _ => rfl⟩

/-- C6: OBFS.split raises its unsupported-operation error for every actual
split plan, whatever the plan's contents and input, and OBFS.merge raises
its unsupported-operation error for every chunk list. -/
theorem obfs_split_merge_unsupported :
    (∀ (inputs : List (List String)) (p : SplitParams),
      OBFS.split inputs (some p) = Except.error "Splitting Fastsearch indices is not possible.") ∧
    (∀ chunks : List (List String),
      OBFS.merge chunks = Except.error "Merging Fastsearch indices is not supported.") :=
  ⟨fun _ _ => rfl, fun _ => rfl⟩

/-- C7: with a number_of_parts plan, SDF.split, MOL2.split and CML.split
raise errors naming their own formats and write no chunk, but the error
message FPS.split raises names MOL2-files, not FPS: the claim that every
splittable format's message names that same format fails on FPS. -/
theorem split_number_of_parts_messages :
    SDF.split (some { split_mode := "number_of_parts", split_size := 2 }) []
        = Except.error "Split mode \"number_of_parts\" is currently not implemented for SD-files." ∧
    MOL2.split (some { split_mode := "number_of_parts", split_size := 2 }) []
        = Except.error "Split mode \"number_of_parts\" is currently not implemented for MOL2-files." ∧
    CML.split (some { split_mode := "number_of_parts", split_size := 2 }) []
        = Except.error "Split mode \"number_of_parts\" is currently not implemented for CML-files." ∧
    FPS.split (some { split_mode := "number_of_parts", split_size := 2 }) []
        = Except.error "Split mode \"number_of_parts\" is currently not implemented for MOL2-files." ∧
    strContains "Split mode \"number_of_parts\" is currently not implemented for MOL2-files." "MOL2" = true ∧
    strContains "Split mode \"number_of_parts\" is currently not implemented for MOL2-files." "FPS" = false :=
  ⟨rfl, rfl, rfl, rfl, by decide, by decide⟩

/-- C8: when the external castep-cell reader fails with ValueError, the Cell
enrichment branch does not log and re-raise that ValueError: its handler
evaluates the unbound name `e`, so a NameError different from the detected
error propagates to the caller, for every ValueError message. -/
theorem cell_set_meta_masks_value_error :
    ∀ m : String,
      Cell.setMetaEnriched (Except.error (PyErr.valueError m))
          = Except.error (PyErr.nameError "name e is not defined") ∧
      PyErr.nameError "name e is not defined" ≠ PyErr.valueError m :=
  fun _m => ⟨rfl, fun h => PyErr.noConfusion h⟩

theorem cifLoop_eq_firstSubst (headChars : List Char) :
    ∀ lines : List (List Char),
      cifLoop headChars lines =
        (match firstSubst lines with
         | none => none
         | some l =>
           if lstarts dataTokL l then
             (if lcontains siteTokL headChars then some true else none)
           else some false) := by
  intro lines
  induction lines with
  | nil => rfl
  | cons line rest ih =>
    by_cases h1 : line.isEmpty
    · simp only [cifLoop, firstSubst, if_pos h1]
      exact ih
    · by_cases h2 : line.headD ' ' == '#'
      · simp only [cifLoop, firstSubst, if_neg h1, if_pos h2]
        exact ih
      · simp only [cifLoop, firstSubst, if_neg h1, if_neg h2]

/-- C4 counterexample: the claim says CIF.sniff returns True only for files
whose first substantive line in the 1000-byte head starts with `data_`, but
on a file whose head holds only a comment line containing the atom-site
token, the line loop falls through with no substantive line seen, the
full-file fallback finds the token inside the comment, and sniff returns
True without any `data_` line existing in the file. -/
theorem cif_sniff_counterexample :
    CIF.sniff cifCex = true ∧
    firstSubst (splitNl (cifCex.data.take 1000)) = none ∧
    lcontains dataTokL cifCex.data = false := by
  refine ⟨?_, ?_, ?_⟩ <;> decide

/-- C4 amended: CIF.sniff returns True exactly as the claim says whenever
the 1000-byte head has a substantive line — that line must start with
`data_` (else False immediately) and the token must occur in the head or,
after the fallback scan, anywhere in the file — but when the head has no
substantive line (every line blank or a `#` comment) the loop falls through
and sniff degenerates to the full-file token search alone. -/
theorem cif_sniff_characterization (content : String) :
    CIF.sniff content =
      (match firstSubst (splitNl (content.data.take 1000)) with
       | some l =>
         if lstarts dataTokL l then
           (lcontains siteTokL (content.data.take 1000) || lcontains siteTokL content.data)
         else false
       | none => lcontains siteTokL content.data) := by
  unfold CIF.sniff
  rw [cifLoop_eq_firstSubst]
  cases hfs : firstSubst (splitNl (content.data.take 1000)) with
  | none => rfl
  | some l =>
    by_cases hd : lstarts dataTokL l
    · by_cases hc : lcontains siteTokL (content.data.take 1000)
      · simp [hd, hc]
      · simp [hd, hc]
    · simp [hd]

theorem cml_processChunk_good (out : List String) (c : List String)
    (h : cmlGoodHdr c = true) :
    CML.processChunk out c = Except.ok (out ++ cmlChunkBody c) := by
  cases c with
  | nil => simp [cmlGoodHdr] at h
  | cons h1 rest =>
    cases rest with
    | nil => simp [cmlGoodHdr] at h
    | cons l body =>
      simp only [cmlGoodHdr, Bool.and_eq_true] at h
      simp only [CML.processChunk, if_pos h.1, if_pos h.2]
      rfl

theorem cml_mergeLoop_pre :
    ∀ (pre : List (List String)), (∀ x ∈ pre, cmlGoodHdr x = true) →
      ∀ (out : List String) (rest : List (List String)),
        CML.mergeLoop out (pre ++ rest) = CML.mergeLoop (out ++ cmlOut pre) rest := by
  intro pre
  induction pre with
  | nil =>
    intro _ out rest
    simp [cmlOut]
  | cons x pre ih =>
    intro hx out rest
    have hgood : cmlGoodHdr x = true := hx x (by simp)
    have hstep : CML.mergeLoop out ((x :: pre) ++ rest)
        = CML.mergeLoop (out ++ cmlChunkBody x) (pre ++ rest) := by
      simp only [List.cons_append, CML.mergeLoop, cml_processChunk_good out x hgood,
        List.append_eq]
    rw [hstep, ih (fun y hy => hx y (by simp [hy])) (out ++ cmlChunkBody x) rest]
    simp [cmlOut, List.append_assoc]

theorem cml_mergeLoop_bad (out : List String) (c : List String) (post : List (List String))
    (hc : c ≠ []) (hbad : cmlGoodHdr c = false) :
    ∃ msg, CML.mergeLoop out (c :: post) = Except.error (out ++ cmlHdrRead c, msg)
      ∧ cmlHdrRead c ≠ [] := by
  cases c with
  | nil => exact absurd rfl hc
  | cons h1 rest =>
    cases hxv : strStarts (pyLstrip h1) "<?xml version=\"1.0\"?>" with
    | false =>
      refine ⟨"is not a valid XML file!", ?_, by simp [cmlHdrRead, hxv]⟩
      simp [CML.mergeLoop, CML.processChunk, hxv, cmlHdrRead]
    | true =>
      cases rest with
      | nil =>
        refine ⟨"is not a CML file!", ?_, by simp [cmlHdrRead, hxv]⟩
        simp [CML.mergeLoop, CML.processChunk, hxv, cmlHdrRead]
      | cons l body =>
        have hl : strStarts (pyLstrip l) "<cml xmlns=\"http://www.xml-cml.org/schema" = false := by
          simpa [cmlGoodHdr, hxv] using hbad
        refine ⟨"is not a CML file!", ?_, by simp [cmlHdrRead, hxv]⟩
        simp [CML.mergeLoop, CML.processChunk, hxv, hl, cmlHdrRead]

/-- C9: when a chunk list of length at least 2 given to CML.merge has a
first malformed chunk (bad XML-declaration first line, or bad or missing
cml-namespace second line), merge raises an error, and the destination at
that moment holds the molecule content of the preceding well-formed chunks
followed by the offending chunk's header lines read so far: the destination
is left partially written, not rolled back. -/
theorem cml_merge_malformed_chunk (pre : List (List String)) (c : List String)
    (post : List (List String))
    (hpre : ∀ x ∈ pre, cmlGoodHdr x = true)
    (hc : c ≠ []) (hbad : cmlGoodHdr c = false)
    (hlen : 2 ≤ (pre ++ c :: post).length) :
    ∃ msg, CML.merge (pre ++ c :: post) = Except.error (cmlOut pre ++ cmlHdrRead c, msg)
      ∧ cmlHdrRead c ≠ [] := by
  obtain ⟨msg, hloop, hne⟩ := cml_mergeLoop_bad (cmlOut pre) c post hc hbad
  refine ⟨msg, ?_, hne⟩
  unfold CML.merge
  rw [if_neg (show ¬((pre ++ c :: post).length = 1) by omega),
    if_neg (show ¬((pre ++ c :: post).isEmpty = true) by simp)]
  rw [cml_mergeLoop_pre pre hpre [] (c :: post)]
  simpa using hloop

/-- Witness for C9: one well-formed chunk followed by a chunk whose second
line is not the cml-namespace line. -/
theorem cml_merge_malformed_chunk_witness :
    ∃ msg, CML.merge ([cmlGoodChunk] ++ cmlBadChunk :: [])
        = Except.error (cmlOut [cmlGoodChunk] ++ cmlHdrRead cmlBadChunk, msg)
      ∧ cmlHdrRead cmlBadChunk ≠ [] :=
  cml_merge_malformed_chunk [cmlGoodChunk] cmlBadChunk []
    (by decide) (by decide) (by decide) (by decide)
